import Mathlib

/-!
Shallow embedding of `view/python_core/measurement_list/importers.py` (pyview).

Conventions of the embedding:
* Python `float` values are modelled as `Rat` (all values appearing in the
  verified properties are exact decimals).
* Python functions that may raise an exception are modelled with `Option`
  (`none` = an exception escapes) or `Except` (when the distinct exception
  kind matters).
* Python strings are modelled as `String`; the string operations used by the
  source (`strip`, `split`, `endswith`, slicing) are implemented over
  `List Char` by structural recursion so that concrete instances evaluate
  inside the kernel.
* The external collaborators (`tillvisionio.VWSDataManager`, `tifffile`,
  `easygui`) are modelled by passing the data they would produce as explicit
  arguments, following the collaborator contract stated in the spec.
* Logging calls are side effects with no influence on the returned data and
  are not modelled.
-/

namespace PyView

/-- Python `str.strip()`: removes leading and trailing whitespace. -/
def pyStrip (cs : List Char) : List Char :=
  ((cs.dropWhile Char.isWhitespace).reverse.dropWhile Char.isWhitespace).reverse

/-- Python `str.split(' ')`: splits at every single space character, keeping
empty tokens; the result is never the empty list. -/
def pySplitOnSpace : List Char → List (List Char)
  | [] => [[]]
  | c :: cs =>
    if c = ' ' then [] :: pySplitOnSpace cs
    else
      match pySplitOnSpace cs with
      | t :: ts => (c :: t) :: ts
      | [] => [[c]]

/-- Value of a list of decimal digit characters, most significant first. -/
def digitsToNat (cs : List Char) : Nat :=
  cs.foldl (fun a c => 10 * a + (c.toNat - 48)) 0

/-- Splits a leading run of decimal digits off a character list. -/
def splitDigits : List Char → List Char × List Char
  | [] => ([], [])
  | c :: cs =>
    if c.isDigit then
      let (d, r) := splitDigits cs
      (c :: d, r)
    else ([], c :: cs)

/-- Parses an unsigned decimal mantissa (`digits`, `digits.digits`, `.digits`,
`digits.`), returning its value and the unconsumed characters. -/
def parseMantissa (cs : List Char) : Option (Rat × List Char) :=
  let (ip, r1) := splitDigits cs
  match r1 with
  | '.' :: r2 =>
    let (fp, r3) := splitDigits r2
    if ip.isEmpty ∧ fp.isEmpty then none
    else some ((digitsToNat ip : Rat) + (digitsToNat fp : Rat) / (10 : Rat) ^ fp.length, r3)
  | _ => if ip.isEmpty then none else some ((digitsToNat ip : Rat), r1)

/-- Model of Python's builtin `float(str)` on decimal literals: surrounding
whitespace is ignored, then an optional sign, a decimal mantissa and an
optional exponent must consume the whole token; anything else raises
`ValueError` (`none`).  Exotic accepted spellings (`inf`, `nan`, underscore
separators) are not modelled; no verified property involves them. -/
def pyFloatChars (cs0 : List Char) : Option Rat :=
  let cs := pyStrip cs0
  let (sgn, cs1) : Rat × List Char :=
    match cs with
    | '-' :: r => (-1, r)
    | '+' :: r => (1, r)
    | r => (1, r)
  match parseMantissa cs1 with
  | none => none
  | some (m, rest) =>
    match rest with
    | [] => some (sgn * m)
    | 'e' :: r | 'E' :: r =>
      let (esgn, r1) : Int × List Char :=
        match r with
        | '-' :: t => (-1, t)
        | '+' :: t => (1, t)
        | t => (1, t)
      let (ed, r2) := splitDigits r1
      if ed.isEmpty ∨ ¬ r2.isEmpty then none
      else some (sgn * m * (10 : Rat) ^ (esgn * (digitsToNat ed : Int)))
    | _ => none

/-- Python `float` applied to a whole string. -/
def pyFloat (s : String) : Option Rat :=
  pyFloatChars s.toList

/-- Evaluates `f` on each element left to right, stopping at the first
failure: the Python loop `[f(x) for x in xs]` where `f` may raise. -/
def optionTraverse (f : α → Option β) : List α → Option (List β)
  | [] => some []
  | a :: as =>
    match f a, optionTraverse f as with
    | some b, some bs => some (b :: bs)
    | _, _ => none

/-- Embedding of `calculate_dt_from_timing_ms`: the timing string is stripped
and split on single space characters (Python `str.split(' ')` keeps empty
tokens), every token goes through `float`, and the frame interval is
`(times[-1] - times[0]) / (len(times) - 1)`.  A `ValueError` from a token or
the `ZeroDivisionError` arising when there is exactly one token yield `none`
(`str.split` never returns an empty list, so `len(times) = 0` cannot occur). -/
def calculate_dt_from_timing_ms (timing_ms : String) : Option Rat :=
  match optionTraverse pyFloatChars (pySplitOnSpace (pyStrip timing_ms.toList)) with
  | none => none
  | some times =>
    if times.length ≤ 1 then none
    else some ((times.getLast! - times.head!) / ((times.length : Rat) - 1))

/-- Columns injected into each raw record by `additional_cols_func`. -/
structure AdditionalCols where
  dt : Rat
  analyze : Int
deriving DecidableEq, Repr

/-- Embedding of `additional_cols_func`: any exception escaping the dt
computation is caught and replaced by `dt = -1, Analyze = 0`. -/
def additional_cols_func (timing_ms : String) : AdditionalCols :=
  match calculate_dt_from_timing_ms timing_ms with
  | some dt => ⟨dt, 1⟩
  | none => ⟨-1, 0⟩

example : calculate_dt_from_timing_ms "0 100 200 300" = some 100 := by
  with_unfolding_all rfl
example : calculate_dt_from_timing_ms "5" = none := by with_unfolding_all rfl
example : additional_cols_func "5" = ⟨-1, 0⟩ := by with_unfolding_all rfl
example : calculate_dt_from_timing_ms "0\t100" = none := by with_unfolding_all rfl
example : calculate_dt_from_timing_ms "0  100" = none := by with_unfolding_all rfl
example : pyFloat "-1.5e2" = some (-150) := by with_unfolding_all rfl

/-- Python `str.endswith(suffix)`. -/
def pyEndsWith (s suffix : String) : Bool :=
  suffix.toList.isSuffixOf s.toList

/-- Python `s[-2:]` (the whole string when it is shorter than two
characters). -/
def pyLastTwo (s : String) : List Char :=
  (s.toList.reverse.take 2).reverse

/-- Splits a character list at every character satisfying `p`, keeping empty
pieces. -/
def splitWhen (p : Char → Bool) : List Char → List (List Char)
  | [] => [[]]
  | c :: cs =>
    if p c then [] :: splitWhen p cs
    else
      match splitWhen p cs with
      | t :: ts => (c :: t) :: ts
      | [] => [[c]]

/-- Components of `pathlib.PureWindowsPath(fle).parts`: both `/` and `\` are
separators and repeated separators are collapsed.  Drive letters, root
markers and `.`/`..` handling are not modelled; the verified properties only
involve relative paths built from plain components. -/
def pyWindowsParts (fle : String) : List String :=
  ((splitWhen (fun c => c = '/' ∨ c = '\\') fle.toList).filter
    (fun cs => ¬ cs.isEmpty)).map (fun cs => ⟨cs⟩)

/-- Stem (`pathlib`'s final component without its last suffix) of a file
name: if the last `.` occurs strictly inside the name (not at position 0 and
not as the last character), everything before it; otherwise the whole
name. -/
def pyStemOfName (name : String) : String :=
  let cs := name.toList
  match ((List.range cs.length).filter (fun i => cs.getD i ' ' = '.')).getLast? with
  | some i => if 0 < i ∧ i + 1 < cs.length then ⟨cs.take i⟩ else name
  | none => name

/-- Final component of `pathlib.Path(fle)` on a POSIX host (`.name`): the
last component after splitting on `/`, ignoring empty and `.` components. -/
def pyPosixName (fle : String) : String :=
  (((splitWhen (fun c => c = '/') fle.toList).filter
    (fun cs => ¬ (cs.isEmpty ∨ cs = ['.']))).map (fun cs => (⟨cs⟩ : String))).getLastD ""

example : pyWindowsParts "animal1/data.pst" = ["animal1", "data.pst"] := by decide
example : pyStemOfName "data.pst" = "data" := by decide
example : pyStemOfName ".pst" = ".pst" := by decide
example : pyPosixName "a/b/c.vws.log" = "c.vws.log" := by decide

/-- Movie-data extensions of `TillImporter` (`__init__`): checked in this
order. -/
def till_movie_data_extensions : List String := [".pst", ".ps"]

/-- Embedding of `TillImporter.get_path_relative_to_data_dir`: the first
matching movie-data extension selects the branch returning analyzability 1
and `str(Path(parts[-2]) / stem)`; with no match the for-else returns
`(0, "wrong extension")`.  `parts[-2]` raises `IndexError` when the path has
fewer than two components (`none`). -/
def till_get_path_relative_to_data_dir (fle : String) : Option (Int × String) :=
  match till_movie_data_extensions.find? (fun ext => pyEndsWith fle ext) with
  | some _ =>
    let parts := pyWindowsParts fle
    if 2 ≤ parts.length then
      some (1, parts.getD (parts.length - 2) "" ++ "/" ++ pyStemOfName (parts.getLastD ""))
    else none
  | none => some (0, "wrong extension")

example : till_get_path_relative_to_data_dir "animal1/data.pst" = some (1, "animal1/data") := by
  decide
example : till_get_path_relative_to_data_dir "animal1/data.txt" = some (0, "wrong extension") := by
  decide

/-- Embedding of the `.ps` repair in `convert_vws_names_to_lst_names`: when
the last two characters of the location are `ps` (one tillVision macro
version eats the trailing `t`), a `t` is appended (with a warning logged). -/
def fix_ps_location (s : String) : String :=
  if pyLastTwo s = ['p', 's'] then s ++ "t" else s

/-- One raw measurement record as produced for this importer by the external
`VWSDataManager` (package `tillvisionio`): the vendor fields read by the
conversion, plus the `index` column carried by the manager's DataFrame. -/
structure VWSRecord where
  index : Nat
  label : String
  location : String
  timing_ms : String
  monochromatorWL_nm : Rat
  utcTime : Rat
deriving DecidableEq, Repr

/-- The caller-supplied default row (`pd.Series(default_values)`).  Only the
`Analyze` entry is inspected by the conversion (`lst_line.get("Analyze", 1)`,
`none` = column absent); every other default column is copied through
unchanged and no verified property depends on one, so they are not
tracked. -/
structure DefaultRow where
  analyze : Option Int
deriving DecidableEq, Repr

/-- One normalized measurement-list row of the Till importers.  `mtime`
models the elapsed seconds `utc - first_utc` underlying the `MTime` duration
string (`none` = column not yet set: the column is added only after
`convert_vws_names_to_lst_names` returns); `dbb2` is `none` when the column
is absent (single-wavelength rows and second-channel rows). -/
structure LstRow where
  measu : Nat
  label : String
  dbb1 : String
  dbb2 : Option String
  analyze : Int
  cycle : Rat
  lambda : Rat
  utc : Rat
  mtime : Option Rat
deriving DecidableEq, Repr

/-- Embedding of `TillImporter.convert_vws_names_to_lst_names`.  The `dt`
column read from the series is the one the external manager computed with
the injected `additional_cols_func`; the record-level `Analyze` column the
same function produced is never read here: the output `Analyze` is the
path-resolution flag times the default row's `Analyze` entry (1 when
absent). -/
def convert_vws_names_to_lst_names (rec : VWSRecord) (default_row : DefaultRow) :
    Option LstRow :=
  let expected_data_file := fix_ps_location rec.location
  match till_get_path_relative_to_data_dir expected_data_file with
  | none => none
  | some (analyze, dbb1_relative) =>
    some { measu := rec.index + 1
           label := rec.label
           dbb1 := dbb1_relative
           dbb2 := none
           analyze := analyze * (default_row.analyze.getD 1)
           cycle := (additional_cols_func rec.timing_ms).dt
           lambda := rec.monochromatorWL_nm
           utc := rec.utcTime
           mtime := none }

example :
    convert_vws_names_to_lst_names
      ⟨0, "m1", "animal1/data.ps", "0 100", 340, 10⟩ ⟨some 1⟩ =
      some ⟨1, "m1", "animal1/data", none, 1, 100, 340, 10, none⟩ := by
  with_unfolding_all rfl

/-- Pairs every list element with its position, starting at `n`. -/
def enumFromAux (n : Nat) : List α → List (Nat × α)
  | [] => []
  | a :: as => (n, a) :: enumFromAux (n + 1) as

/-- Model of `VWSDataManager.get_earliest_utc` (external collaborator): the
earliest UTC timestamp across the file's records (unspecified, modelled as 0,
on a file without records). -/
def get_earliest_utc (records : List VWSRecord) : Rat :=
  match records.map VWSRecord.utcTime with
  | [] => 0
  | t :: ts => ts.foldl min t

/-- Model of `VWSDataManager.get_all_metadata` (external collaborator,
package `tillvisionio`, per the contract in the spec): the file's records
that pass the filter, each carrying a fresh 0-based `index` column; the
columns computed by the injected `additional_cols_func` are modelled by
applying that function where the conversion reads them. -/
def get_all_metadata (records : List VWSRecord) (measurement_filter : VWSRecord → Bool) :
    List VWSRecord :=
  (enumFromAux 0 (records.filter measurement_filter)).map fun p => { p.2 with index := p.1 }

/-- Embedding of `TillImporterOneWavelength.read_single_measurement_metadata`
for one `vws.log` file (given as the record list its `VWSDataManager`
yields): every surviving record is converted and the `MTime` column is set
from the record's UTC and the file's earliest UTC. -/
def till1_read_single_measurement_metadata (records : List VWSRecord)
    (measurement_filter : VWSRecord → Bool) (default_row : DefaultRow) :
    Option (List LstRow) :=
  optionTraverse
    (fun m => (convert_vws_names_to_lst_names m default_row).map
      fun row => { row with mtime := some (row.utc - get_earliest_utc records) })
    (get_all_metadata records measurement_filter)

/-- Embedding of `BaseImporter.import_metadata` for the one-wavelength Till
importer: per-file tables are concatenated in file order; the empty file list
yields the empty table. -/
def till1_import_metadata (raw_data_files : List (List VWSRecord))
    (measurement_filter : VWSRecord → Bool) (default_row : DefaultRow) :
    Option (List LstRow) :=
  (optionTraverse
    (fun fle => till1_read_single_measurement_metadata fle measurement_filter default_row)
    raw_data_files).map List.flatten

/-- Loop body of `TillImporterTwoWavelength.read_single_measurement_metadata`
for one zipped pair of records: both channels are converted, the channel-1
row receives the channel-2 row's `DBB1` as `dbb2`, the channel-2 row's
`Analyze` is forced to 0, and the two rows are emitted channel 1 first. -/
def till2_pair_rows (default_row : DefaultRow) (first_utc : Rat)
    (p : VWSRecord × VWSRecord) : Option (List LstRow) :=
  match convert_vws_names_to_lst_names p.1 default_row,
        convert_vws_names_to_lst_names p.2 default_row with
  | some lst_line_wl340, some lst_line_wl380 =>
    some [{ lst_line_wl340 with
              dbb2 := some lst_line_wl380.dbb1
              mtime := some (lst_line_wl340.utc - first_utc) },
          { lst_line_wl380 with
              analyze := 0
              mtime := some (lst_line_wl380.utc - first_utc) }]
  | _, _ => none

/-- Embedding of `TillImporterTwoWavelength.read_single_measurement_metadata`
for one file, given the two per-wavelength record lists returned by the
external `VWSDataManager.get_metadata_two_wavelengths` and the file's
earliest UTC: the two lists are zipped (pairing by position, extra records
of the longer list dropped) and each pair contributes its two rows. -/
def till2_read_single_measurement_metadata (ms340 ms380 : List VWSRecord)
    (default_row : DefaultRow) (first_utc : Rat) : Option (List LstRow) :=
  (optionTraverse (till2_pair_rows default_row first_utc) (ms340.zip ms380)).map List.flatten

/-- Embedding of `BaseImporter.import_metadata` for the two-wavelength Till
importer; each file is the data its manager provides (the two per-wavelength
record lists and the earliest UTC). -/
def till2_import_metadata (raw_data_files : List (List VWSRecord × List VWSRecord × Rat))
    (default_row : DefaultRow) : Option (List LstRow) :=
  (optionTraverse
    (fun fle => till2_read_single_measurement_metadata fle.1 fle.2.1 default_row fle.2.2)
    raw_data_files).map List.flatten

example :
    till1_import_metadata
      [[⟨7, "m1", "animal1/data.pst", "0 100", 340, 10⟩],
       [⟨7, "m1", "animal1/data.pst", "0 100", 340, 10⟩]]
      (fun _ => true) ⟨some 1⟩ =
      some [⟨1, "m1", "animal1/data", none, 1, 100, 340, 10, some 0⟩,
            ⟨1, "m1", "animal1/data", none, 1, 100, 340, 10, some 0⟩] := by
  with_unfolding_all rfl

/-- Movie-data extensions of `LSMImporter` (`__init__`). -/
def lsm_movie_data_extensions : List String := [".lsm"]

/-- Value written to the `DBB1` column by the LSM importer: a relative path,
or the integer sentinel `-1` when the extension was not recognized. -/
inductive LSMDbb1 where
  | path (s : String)
  | notFoundSentinel
deriving DecidableEq, Repr

/-- Embedding of `LSMImporter.get_path_relative_to_data_dir`: a recognized
extension yields `(1, str(Path(parts[-3]) / parts[-2] / stem))` (`IndexError`
— `none` — when the path has fewer than three components); otherwise the
for-else returns `(0, -1)`. -/
def lsm_get_path_relative_to_data_dir (fle : String) : Option (Int × LSMDbb1) :=
  match lsm_movie_data_extensions.find? (fun ext => pyEndsWith fle ext) with
  | some _ =>
    let parts := pyWindowsParts fle
    if 3 ≤ parts.length then
      some (1, .path (parts.getD (parts.length - 3) "" ++ "/" ++
        parts.getD (parts.length - 2) "" ++ "/" ++ pyStemOfName (parts.getLastD "")))
    else none
  | none => some (0, .notFoundSentinel)

/-- Modelled from the spec: `view.python_core.misc.excel_datetime` (a module
of this repository that is not under `src/`) turns the LSM `Sample0time`
Excel-format date into a datetime whose `.timestamp()` is seconds since the
epoch; its numeric details are outside the provided sources and no verified
property depends on the value, so the model keeps the raw value. -/
def excel_datetime_timestamp (sample0time : Rat) : Rat :=
  sample0time

/-- The fields of `tifffile.TiffFile(fle).lsm_metadata` (external collaborator)
read by the LSM conversion. -/
structure LSMMetadata where
  scanName : String
  timeIntervall : Rat
  wavelength : Rat
  sample0time : Rat
  voxelSizeX : Rat
  voxelSizeY : Rat
deriving DecidableEq, Repr

/-- One normalized measurement-list row of the LSM importer. -/
structure LSMRow where
  measu : Nat
  label : String
  cycle : Rat
  lambda : Rat
  utc : Rat
  pxSzX : Rat
  pxSzY : Rat
  dbb1 : LSMDbb1
  analyze : Int
deriving DecidableEq, Repr

/-- Embedding of `LSMImporter.convert_lsm_metadata_to_lst_row`: seconds are
converted to milliseconds for `Cycle`, meters to micrometers for the pixel
sizes, and `Analyze` is exactly the path-resolution flag. -/
def convert_lsm_metadata_to_lst_row (measu : Nat) (fle : String) (lsm_metadata : LSMMetadata)
    (default_row : DefaultRow) : Option LSMRow :=
  match lsm_get_path_relative_to_data_dir fle with
  | none => none
  | some (analyze, dbb1_relative) =>
    some { measu := measu
           label := lsm_metadata.scanName
           cycle := lsm_metadata.timeIntervall * 1000
           lambda := lsm_metadata.wavelength
           utc := excel_datetime_timestamp lsm_metadata.sample0time
           pxSzX := lsm_metadata.voxelSizeX / (1 / 1000000)
           pxSzY := lsm_metadata.voxelSizeY / (1 / 1000000)
           dbb1 := dbb1_relative
           analyze := analyze }

/-- Embedding of `LSMImporter.read_single_measurement_metadata`: one row per
file, with `Measu = fle_ind + 1`. -/
def lsm_read_single_measurement_metadata (fle : String) (lsm_metadata : LSMMetadata)
    (fle_ind : Nat) (default_row : DefaultRow) : Option (List LSMRow) :=
  (convert_lsm_metadata_to_lst_row (fle_ind + 1) fle lsm_metadata default_row).map
    fun lst_row => [lst_row]

/-- Embedding of `BaseImporter.import_metadata` for the LSM importer (each
input file together with the metadata `tifffile` reads from it); the
measurement filter is unused by this importer. -/
def lsm_import_metadata (raw_data_files : List (String × LSMMetadata))
    (default_row : DefaultRow) : Option (List LSMRow) :=
  (optionTraverse
    (fun p => lsm_read_single_measurement_metadata p.2.1 p.2.2 p.1 default_row)
    (enumFromAux 0 raw_data_files)).map List.flatten

/-- The three importer classes of the module. -/
inductive ImporterClass where
  | tillImporterOneWavelength
  | tillImporterTwoWavelength
  | lsmImporter
deriving DecidableEq, Repr

/-- Exception kinds raised by the module-level functions. -/
inductive PyErr where
  | notImplementedError
  | attributeError
deriving DecidableEq, Repr

instance [DecidableEq ε] [DecidableEq α] : DecidableEq (Except ε α) := fun x y =>
  match x, y with
  | .ok a, .ok b =>
    if h : a = b then isTrue (h ▸ rfl) else isFalse (fun hh => h (Except.ok.inj hh))
  | .error a, .error b =>
    if h : a = b then isTrue (h ▸ rfl) else isFalse (fun hh => h (Except.error.inj hh))
  | .ok _, .error _ => isFalse (fun hh => Except.noConfusion hh)
  | .error _, .ok _ => isFalse (fun hh => Except.noConfusion hh)

/-- Embedding of `get_importer_class`. -/
def get_importer_class (LE_loadExp : Int) : Except PyErr ImporterClass :=
  if LE_loadExp = 3 then .ok .tillImporterOneWavelength
  else if LE_loadExp = 4 then .ok .tillImporterTwoWavelength
  else if LE_loadExp = 20 then .ok .lsmImporter
  else .error .notImplementedError

/-- Names of the instance attributes assigned by `BaseImporter.__init__`. -/
def base_importer_init_attribute_names : List String :=
  ["default_values", "associated_extensions", "associate_file_type", "LE_loadExp",
   "movie_data_extensions"]

/-- Names of the instance attributes assigned when constructing an instance
of the given class (`BaseImporter.__init__` plus the subclass `__init__`
chain, which only re-assigns names from the base set: `TillImporter` and
`LSMImporter` set `associate_file_type`, `associated_extensions` and
`movie_data_extensions`, the concrete classes set `LE_loadExp`).  No class in
the module defines a method or class attribute named `movie_data_extension`
(singular), so attribute lookup on an instance is lookup in this list. -/
def instance_attribute_names (cls : ImporterClass) : List String :=
  match cls with
  | .tillImporterOneWavelength =>
    base_importer_init_attribute_names ++
      ["associate_file_type", "associated_extensions", "movie_data_extensions", "LE_loadExp"]
  | .tillImporterTwoWavelength =>
    base_importer_init_attribute_names ++
      ["associate_file_type", "associated_extensions", "movie_data_extensions", "LE_loadExp"]
  | .lsmImporter =>
    base_importer_init_attribute_names ++
      ["associate_file_type", "associated_extensions", "movie_data_extensions", "LE_loadExp"]

/-- Embedding of `get_setup_extension`: selects the importer class,
constructs an instance with empty default values, and reads its
`movie_data_extension` attribute; reading an attribute that was never
assigned raises `AttributeError`.  Only the existence of the attribute is
modelled (the read never succeeds, so no value needs to be represented). -/
def get_setup_extension (LE_loadExp : Int) : Except PyErr Unit :=
  match get_importer_class LE_loadExp with
  | .error e => .error e
  | .ok importer_class =>
    if (instance_attribute_names importer_class).contains "movie_data_extension" then .ok ()
    else .error .attributeError

/-- Subject identifier used by `TillImporter.get_animal_tag_raw_data_mapping`:
the chosen file's name up to the first period. -/
def till_animal_tag (fle : String) : String :=
  ⟨(pyPosixName fle).toList.takeWhile (fun c => ¬ c = '.')⟩

/-- Insertion into a Python `dict` (insertion order kept, an existing key's
value replaced in place; keys occur at most once in a `dict`, so replacing
the first occurrence is replacing the occurrence). -/
def dictInsert : List (String × List String) → String → List String →
    List (String × List String)
  | [], key, val => [(key, val)]
  | kv :: rest, key, val =>
    if kv.1 = key then (key, val) :: rest else kv :: dictInsert rest key val

/-- Python `dict.get`/`[]` lookup. -/
def dictGet (d : List (String × List String)) (key : String) : Option (List String) :=
  (d.find? (fun kv => kv.1 = key)).map (fun kv => kv.2)

/-- Embedding of `TillImporter.get_animal_tag_raw_data_mapping`: every chosen
file is stored as the singleton value `[fle]` under its animal tag (the empty
choice yields the empty dict, as in the source's early return). -/
def till_get_animal_tag_raw_data_mapping (files_chosen : List String) :
    List (String × List String) :=
  files_chosen.foldl (fun d fle => dictInsert d (till_animal_tag fle) [fle]) []

/-- Python `str.startswith(t)`. -/
def pyStartsWith (s t : String) : Bool :=
  t.toList.isPrefixOf s.toList

/-- Outcomes of `BaseImporter.ask_for_files` that escape as exceptions. -/
inductive AskFilesErr where
  | userAbort
  | assertionError (expected_dir : String)
  | indexError
deriving DecidableEq, Repr

/-- Embedding of `BaseImporter.ask_for_files` for the Till importers; the
GUI dialog (external `easygui.fileopenbox`) is modelled by its result
`files_chosen` (`none` = dialog cancelled).  A cancelled dialog raises
`IOError("User Abort...")`; otherwise the assertion checks that the FIRST
chosen file's path starts with the data directory string and its failure
message names that directory; on success the animal-tag grouping is
returned.  (`files_chosen[0]` on an empty list would raise `IndexError`; the
dialog never returns an empty list.) -/
def ask_for_files (default_dir : String) (files_chosen : Option (List String)) :
    Except AskFilesErr (List (String × List String)) :=
  match files_chosen with
  | none => .error .userAbort
  | some [] => .error .indexError
  | some (f0 :: rest) =>
    if pyStartsWith f0 default_dir then
      .ok (till_get_animal_tag_raw_data_mapping (f0 :: rest))
    else .error (.assertionError default_dir)

example :
    till_get_animal_tag_raw_data_mapping ["d/a.1.log", "d/a.2.log", "d/b.log"] =
      [("a", ["d/a.2.log"]), ("b", ["d/b.log"])] := by decide
example : get_setup_extension 3 = .error .attributeError := by decide
example :
    lsm_import_metadata [("r/a1/d/x.lsm", ⟨"s", 1/2, 488, 3, 1/10000000, 1/10000000⟩)] ⟨some 1⟩ =
      some [⟨1, "s", 500, 488, 3, 1/10, 1/10, .path "a1/d/x", 1⟩] := by
  with_unfolding_all rfl

/-! Helper lemmas about the combinators of the embedding. -/

theorem optionTraverse_nil (f : α → Option β) : optionTraverse f [] = some [] := rfl

theorem optionTraverse_cons_eq_some {f : α → Option β} {a : α} {as : List α} {ys : List β}
    (h : optionTraverse f (a :: as) = some ys) :
    ∃ b bs, f a = some b ∧ optionTraverse f as = some bs ∧ ys = b :: bs := by
  cases hfa : f a with
  | none => simp [optionTraverse, hfa] at h
  | some b =>
    cases hrest : optionTraverse f as with
    | none => simp [optionTraverse, hfa, hrest] at h
    | some bs =>
      simp [optionTraverse, hfa, hrest] at h
      exact ⟨b, bs, rfl, rfl, h.symm⟩

theorem optionTraverse_length {f : α → Option β} :
    ∀ {l : List α} {ys : List β}, optionTraverse f l = some ys → ys.length = l.length := by
  intro l
  induction l with
  | nil => intro ys h; simp [optionTraverse] at h; simp [← h]
  | cons a as ih =>
    intro ys h
    obtain ⟨b, bs, _, hrest, hys⟩ := optionTraverse_cons_eq_some h
    subst hys
    simp [ih hrest]

theorem optionTraverse_getElem {f : α → Option β} :
    ∀ {l : List α} {ys : List β} {k : Nat} {a : α}, optionTraverse f l = some ys →
      l[k]? = some a → ∃ b, f a = some b ∧ ys[k]? = some b := by
  intro l
  induction l with
  | nil => intro ys k a _ hk; simp at hk
  | cons x xs ih =>
    intro ys k a h hk
    obtain ⟨b, bs, hfx, hrest, hys⟩ := optionTraverse_cons_eq_some h
    subst hys
    cases k with
    | zero => simp at hk; subst hk; exact ⟨b, hfx, by simp⟩
    | succ k =>
      simp only [List.getElem?_cons_succ] at hk
      obtain ⟨b', hb', hy'⟩ := ih hrest hk
      exact ⟨b', hb', by simpa using hy'⟩

theorem optionTraverse_isSome {f : α → Option β} :
    ∀ {l : List α}, (∀ a ∈ l, (f a).isSome) → (optionTraverse f l).isSome := by
  intro l
  induction l with
  | nil => intro _; simp [optionTraverse]
  | cons a as ih =>
    intro h
    have ha := h a (by simp)
    have has := ih (fun x hx => h x (by simp [hx]))
    cases hfa : f a with
    | none => rw [hfa] at ha; simp at ha
    | some b =>
      cases hrest : optionTraverse f as with
      | none => rw [hrest] at has; simp at has
      | some bs => simp [optionTraverse, hfa, hrest]

theorem enumFromAux_length : ∀ (n : Nat) (l : List α), (enumFromAux n l).length = l.length := by
  intro n l
  induction l generalizing n with
  | nil => rfl
  | cons a as ih => simp [enumFromAux, ih]

theorem enumFromAux_getElem :
    ∀ (n k : Nat) (l : List α), (enumFromAux n l)[k]? = l[k]?.map (fun a => (n + k, a)) := by
  intro n k l
  induction l generalizing n k with
  | nil => simp [enumFromAux]
  | cons a as ih =>
    cases k with
    | zero => simp [enumFromAux]
    | succ k =>
      simp only [enumFromAux, List.getElem?_cons_succ, ih (n + 1) k]
      cases as[k]? with
      | none => rfl
      | some x => simp [Nat.add_assoc, Nat.add_comm 1 k]

theorem enumFromAux_mem : ∀ {n : Nat} {l : List α} {p : Nat × α},
    p ∈ enumFromAux n l → p.2 ∈ l := by
  intro n l
  induction l generalizing n with
  | nil => intro p h; simp [enumFromAux] at h
  | cons a as ih =>
    intro p h
    simp only [enumFromAux, List.mem_cons] at h
    rcases h with h | h
    · subst h; simp
    · exact List.mem_cons_of_mem _ (ih h)

theorem get_all_metadata_length (records : List VWSRecord) (mf : VWSRecord → Bool) :
    (get_all_metadata records mf).length = (records.filter mf).length := by
  simp [get_all_metadata, enumFromAux_length]

theorem get_all_metadata_getElem (records : List VWSRecord) (mf : VWSRecord → Bool) (k : Nat) :
    (get_all_metadata records mf)[k]? =
      ((records.filter mf)[k]?).map (fun r => { r with index := k }) := by
  simp [get_all_metadata, enumFromAux_getElem]
  rfl

theorem convert_eq_some_iff {rec : VWSRecord} {default_row : DefaultRow} {row : LstRow} :
    convert_vws_names_to_lst_names rec default_row = some row ↔
      ∃ a d, till_get_path_relative_to_data_dir (fix_ps_location rec.location) = some (a, d) ∧
        row = { measu := rec.index + 1
                label := rec.label
                dbb1 := d
                dbb2 := none
                analyze := a * (default_row.analyze.getD 1)
                cycle := (additional_cols_func rec.timing_ms).dt
                lambda := rec.monochromatorWL_nm
                utc := rec.utcTime
                mtime := none } := by
  unfold convert_vws_names_to_lst_names
  cases hp : till_get_path_relative_to_data_dir (fix_ps_location rec.location) with
  | none => simp [hp]
  | some ad =>
    obtain ⟨a, d⟩ := ad
    simp only [hp, Option.some.injEq, Prod.mk.injEq]
    constructor
    · intro h
      exact ⟨a, d, ⟨rfl, rfl⟩, h.symm⟩
    · rintro ⟨a1, d1, ⟨rfl, rfl⟩, h⟩
      exact h.symm

theorem convert_index_isSome (rec : VWSRecord) (i : Nat) (default_row : DefaultRow) :
    (convert_vws_names_to_lst_names { rec with index := i } default_row).isSome =
      (convert_vws_names_to_lst_names rec default_row).isSome := by
  unfold convert_vws_names_to_lst_names
  cases hp : till_get_path_relative_to_data_dir (fix_ps_location rec.location) with
  | none => simp [hp]
  | some ad =>
    obtain ⟨a, d⟩ := ad
    simp [hp]

theorem till1_read_single_length {records : List VWSRecord} {mf : VWSRecord → Bool}
    {default_row : DefaultRow} {rows : List LstRow}
    (h : till1_read_single_measurement_metadata records mf default_row = some rows) :
    rows.length = (records.filter mf).length := by
  unfold till1_read_single_measurement_metadata at h
  rw [optionTraverse_length h, get_all_metadata_length]

theorem till1_read_single_getElem {records : List VWSRecord} {mf : VWSRecord → Bool}
    {default_row : DefaultRow} {rows : List LstRow} {k : Nat} {r : VWSRecord}
    (h : till1_read_single_measurement_metadata records mf default_row = some rows)
    (hk : (records.filter mf)[k]? = some r) :
    ∃ row, convert_vws_names_to_lst_names { r with index := k } default_row = some row ∧
      rows[k]? = some { row with mtime := some (row.utc - get_earliest_utc records) } := by
  unfold till1_read_single_measurement_metadata at h
  have hmk : (get_all_metadata records mf)[k]? = some { r with index := k } := by
    rw [get_all_metadata_getElem, hk]; rfl
  obtain ⟨b, hb, hcb⟩ := optionTraverse_getElem h hmk
  rcases hconv : convert_vws_names_to_lst_names { r with index := k } default_row with _ | row
  · rw [hconv] at hb; simp at hb
  · rw [hconv] at hb
    simp at hb
    exact ⟨row, rfl, by rw [hcb, ← hb]⟩

theorem traverse_flatten_nil (F : α → Option (List β)) :
    (optionTraverse F []).map List.flatten = some [] := rfl

theorem traverse_flatten_cons {F : α → Option (List β)} {a : α} {as : List α} {rows : List β}
    (h : (optionTraverse F (a :: as)).map List.flatten = some rows) :
    ∃ ys rest, F a = some ys ∧ (optionTraverse F as).map List.flatten = some rest ∧
      rows = ys ++ rest := by
  cases hFa : F a with
  | none => simp [optionTraverse, hFa] at h
  | some ys =>
    cases hrest : optionTraverse F as with
    | none => simp [optionTraverse, hFa, hrest] at h
    | some chunks =>
      simp [optionTraverse, hFa, hrest] at h
      exact ⟨ys, chunks.flatten, rfl, by simp [hrest], h.symm⟩

theorem till1_import_length :
    ∀ {files : List (List VWSRecord)} {mf : VWSRecord → Bool} {default_row : DefaultRow}
      {rows : List LstRow}, till1_import_metadata files mf default_row = some rows →
      rows.length = (files.map (fun fle => (fle.filter mf).length)).sum := by
  intro files
  induction files with
  | nil =>
    intro mf δ rows h
    have : (some [] : Option (List LstRow)) = some rows := h
    simp at this
    simp [← this]
  | cons fle fs ih =>
    intro mf δ rows h
    obtain ⟨ys, rest, hys, hrest, hcat⟩ := traverse_flatten_cons h
    subst hcat
    simp [till1_read_single_length hys, ih hrest]

theorem till2_pair_rows_eq_some {default_row : DefaultRow} {first_utc : Rat}
    {p : VWSRecord × VWSRecord} {c : List LstRow}
    (h : till2_pair_rows default_row first_utc p = some c) :
    ∃ l340 l380, convert_vws_names_to_lst_names p.1 default_row = some l340 ∧
      convert_vws_names_to_lst_names p.2 default_row = some l380 ∧
      c = [{ l340 with dbb2 := some l380.dbb1, mtime := some (l340.utc - first_utc) },
           { l380 with analyze := 0, mtime := some (l380.utc - first_utc) }] := by
  unfold till2_pair_rows at h
  cases h1 : convert_vws_names_to_lst_names p.1 default_row with
  | none => rw [h1] at h; simp at h
  | some l340 =>
    cases h2 : convert_vws_names_to_lst_names p.2 default_row with
    | none => rw [h1, h2] at h; simp at h
    | some l380 =>
      rw [h1, h2] at h
      simp at h
      exact ⟨l340, l380, rfl, rfl, h.symm⟩

theorem till2_chunks_spec {default_row : DefaultRow} {first_utc : Rat} :
    ∀ {pairs : List (VWSRecord × VWSRecord)} {rows : List LstRow},
      (optionTraverse (till2_pair_rows default_row first_utc) pairs).map List.flatten =
        some rows →
      rows.length = 2 * pairs.length ∧
      ∀ k p, pairs[k]? = some p →
        ∃ l340 l380, convert_vws_names_to_lst_names p.1 default_row = some l340 ∧
          convert_vws_names_to_lst_names p.2 default_row = some l380 ∧
          rows[2 * k]? =
            some { l340 with dbb2 := some l380.dbb1, mtime := some (l340.utc - first_utc) } ∧
          rows[2 * k + 1]? =
            some { l380 with analyze := 0, mtime := some (l380.utc - first_utc) } := by
  intro pairs
  induction pairs with
  | nil =>
    intro rows h
    have : (some [] : Option (List LstRow)) = some rows := h
    simp at this
    subst this
    exact ⟨rfl, by intro k p hk; simp at hk⟩
  | cons p ps ih =>
    intro rows h
    obtain ⟨ys, rest, hys, hrest, hcat⟩ := traverse_flatten_cons h
    obtain ⟨l340, l380, h1, h2, hc⟩ := till2_pair_rows_eq_some hys
    subst hc hcat
    obtain ⟨ihlen, ihget⟩ := ih hrest
    constructor
    · simp [ihlen]; ring
    · intro k q hk
      cases k with
      | zero =>
        simp at hk
        subst hk
        exact ⟨l340, l380, h1, h2, by simp, by simp⟩
      | succ k =>
        simp only [List.getElem?_cons_succ] at hk
        obtain ⟨m340, m380, g1, g2, gget1, gget2⟩ := ihget k q hk
        refine ⟨m340, m380, g1, g2, ?_, ?_⟩
        · have h2k : 2 * (k + 1) = 2 * k + 1 + 1 := by ring
          rw [h2k]
          simpa using gget1
        · have h2k : 2 * (k + 1) + 1 = 2 * k + 1 + 1 + 1 := by ring
          rw [h2k]
          simpa using gget2

theorem till2_read_single_spec {ms340 ms380 : List VWSRecord} {default_row : DefaultRow}
    {first_utc : Rat} {rows : List LstRow}
    (h : till2_read_single_measurement_metadata ms340 ms380 default_row first_utc = some rows) :
    rows.length = 2 * (ms340.zip ms380).length ∧
    ∀ k p, (ms340.zip ms380)[k]? = some p →
      ∃ l340 l380, convert_vws_names_to_lst_names p.1 default_row = some l340 ∧
        convert_vws_names_to_lst_names p.2 default_row = some l380 ∧
        rows[2 * k]? =
          some { l340 with dbb2 := some l380.dbb1, mtime := some (l340.utc - first_utc) } ∧
        rows[2 * k + 1]? =
          some { l380 with analyze := 0, mtime := some (l380.utc - first_utc) } :=
  till2_chunks_spec h

theorem till2_import_length :
    ∀ {files : List (List VWSRecord × List VWSRecord × Rat)} {default_row : DefaultRow}
      {rows : List LstRow}, till2_import_metadata files default_row = some rows →
      rows.length = (files.map (fun fle => 2 * (fle.1.zip fle.2.1).length)).sum := by
  intro files
  induction files with
  | nil =>
    intro δ rows h
    have : (some [] : Option (List LstRow)) = some rows := h
    simp at this
    simp [← this]
  | cons fle fs ih =>
    intro δ rows h
    obtain ⟨ys, rest, hys, hrest, hcat⟩ := traverse_flatten_cons h
    subst hcat
    simp [(till2_read_single_spec hys).1, ih hrest]

theorem lsm_convert_measu {measu : Nat} {fle : String} {md : LSMMetadata}
    {default_row : DefaultRow} {r : LSMRow}
    (h : convert_lsm_metadata_to_lst_row measu fle md default_row = some r) :
    r.measu = measu := by
  unfold convert_lsm_metadata_to_lst_row at h
  cases hp : lsm_get_path_relative_to_data_dir fle with
  | none => rw [hp] at h; simp at h
  | some ad =>
    obtain ⟨a, d⟩ := ad
    rw [hp] at h
    simp at h
    simp [← h]

theorem lsm_import_aux {default_row : DefaultRow} :
    ∀ {files : List (String × LSMMetadata)} {n : Nat} {rows : List LSMRow},
      (optionTraverse
        (fun p => lsm_read_single_measurement_metadata p.2.1 p.2.2 p.1 default_row)
        (enumFromAux n files)).map List.flatten = some rows →
      rows.length = files.length ∧
      ∀ k p, files[k]? = some p →
        ∃ r, convert_lsm_metadata_to_lst_row (n + k + 1) p.1 p.2 default_row = some r ∧
          rows[k]? = some r := by
  intro files
  induction files with
  | nil =>
    intro n rows h
    have : (some [] : Option (List LSMRow)) = some rows := h
    simp at this
    subst this
    exact ⟨rfl, by intro k p hk; simp at hk⟩
  | cons f fs ih =>
    intro n rows h
    obtain ⟨ys, rest, hys, hrest, hcat⟩ := traverse_flatten_cons h
    have hys' : (convert_lsm_metadata_to_lst_row (n + 1) f.1 f.2 default_row).map
        (fun r => [r]) = some ys := hys
    cases hconv : convert_lsm_metadata_to_lst_row (n + 1) f.1 f.2 default_row with
    | none => rw [hconv] at hys'; simp at hys'
    | some r =>
      rw [hconv] at hys'
      simp at hys'
      subst hys' hcat
      obtain ⟨ihlen, ihget⟩ := ih hrest
      refine ⟨by simp [ihlen], ?_⟩
      intro k p hk
      cases k with
      | zero =>
        simp at hk
        subst hk
        exact ⟨r, by simpa using hconv, by simp⟩
      | succ k =>
        simp only [List.getElem?_cons_succ] at hk
        obtain ⟨r', hr', hrow'⟩ := ihget k p hk
        have harith : n + (k + 1) + 1 = n + 1 + k + 1 := by ring
        rw [harith]
        exact ⟨r', hr', by simpa using hrow'⟩

theorem lsm_import_spec {files : List (String × LSMMetadata)} {default_row : DefaultRow}
    {rows : List LSMRow} (h : lsm_import_metadata files default_row = some rows) :
    rows.length = files.length ∧
    ∀ k p, files[k]? = some p →
      ∃ r, convert_lsm_metadata_to_lst_row (k + 1) p.1 p.2 default_row = some r ∧
        rows[k]? = some r := by
  have := @lsm_import_aux default_row files 0 rows h
  simpa using this

theorem dictGet_cons (x : String × List String) (l : List (String × List String))
    (key : String) :
    dictGet (x :: l) key = if x.1 = key then some x.2 else dictGet l key := by
  by_cases h : x.1 = key
  · have hfind : List.find? (fun kv => decide (kv.1 = key)) (x :: l) = some x :=
      List.find?_cons_of_pos l (by simp [h])
    simp [dictGet, hfind, h]
  · have hfind : List.find? (fun kv => decide (kv.1 = key)) (x :: l) =
        List.find? (fun kv => decide (kv.1 = key)) l :=
      List.find?_cons_of_neg l (by simp [h])
    simp [dictGet, hfind, h]

theorem dictGet_dictInsert_self :
    ∀ (d : List (String × List String)) (k : String) (v : List String),
      dictGet (dictInsert d k v) k = some v := by
  intro d k v
  induction d with
  | nil => simp [dictInsert, dictGet_cons]
  | cons kv rest ih =>
    by_cases h : kv.1 = k
    · simp [dictInsert, h, dictGet_cons]
    · rw [dictInsert, if_neg h, dictGet_cons, if_neg h]
      exact ih

theorem dictGet_dictInsert_other :
    ∀ (d : List (String × List String)) (k k' : String) (v : List String), k ≠ k' →
      dictGet (dictInsert d k v) k' = dictGet d k' := by
  intro d k k' v hne
  induction d with
  | nil => simp [dictInsert, dictGet_cons, dictGet, hne]
  | cons kv rest ih =>
    by_cases h : kv.1 = k
    · rw [dictInsert, if_pos h, dictGet_cons, if_neg hne, dictGet_cons, if_neg (h ▸ hne)]
    · rw [dictInsert, if_neg h, dictGet_cons, dictGet_cons]
      by_cases h' : kv.1 = k'
      · rw [if_pos h', if_pos h']
      · rw [if_neg h', if_neg h']
        exact ih

theorem mem_dictInsert :
    ∀ {d : List (String × List String)} {k : String} {v : List String}
      {kv' : String × List String},
      kv' ∈ dictInsert d k v → kv' ∈ d ∨ kv' = (k, v) := by
  intro d
  induction d with
  | nil => intro k v kv' h; simp [dictInsert] at h; exact Or.inr h
  | cons kv rest ih =>
    intro k v kv' h
    by_cases hk : kv.1 = k
    · simp only [dictInsert, hk, if_pos rfl] at h
      rcases List.mem_cons.mp h with h' | h'
      · exact Or.inr h'
      · exact Or.inl (List.mem_cons_of_mem _ h')
    · simp only [dictInsert, if_neg hk] at h
      rcases List.mem_cons.mp h with h' | h'
      · exact Or.inl (by simp [h'])
      · rcases ih h' with h'' | h''
        · exact Or.inl (List.mem_cons_of_mem _ h'')
        · exact Or.inr h''

theorem till_mapping_foldl_mem :
    ∀ (files : List String) (d : List (String × List String)) (kv : String × List String),
      kv ∈ files.foldl (fun d fle => dictInsert d (till_animal_tag fle) [fle]) d →
      kv ∈ d ∨ ∃ f ∈ files, kv = (till_animal_tag f, [f]) := by
  intro files
  induction files with
  | nil => intro d kv h; exact Or.inl h
  | cons f fs ih =>
    intro d kv h
    rw [List.foldl_cons] at h
    rcases ih _ kv h with hd | ⟨g, hg, hkv⟩
    · rcases mem_dictInsert hd with hd' | heq
      · exact Or.inl hd'
      · exact Or.inr ⟨f, by simp, heq⟩
    · exact Or.inr ⟨g, by simp [hg], hkv⟩

theorem till_mapping_foldl_get :
    ∀ (files : List String) (d : List (String × List String)) (tag : String),
      dictGet (files.foldl (fun d fle => dictInsert d (till_animal_tag fle) [fle]) d) tag =
        match files.reverse.find? (fun f => till_animal_tag f = tag) with
        | some f => some [f]
        | none => dictGet d tag := by
  intro files
  induction files with
  | nil => intro d tag; rfl
  | cons f fs ih =>
    intro d tag
    rw [List.foldl_cons, ih, List.reverse_cons, List.find?_append]
    cases hfs : fs.reverse.find? (fun g => decide (till_animal_tag g = tag)) with
    | some g => simp
    | none =>
      rw [Option.none_or]
      by_cases hf : till_animal_tag f = tag
      · have hfind : List.find? (fun g => decide (till_animal_tag g = tag)) [f] = some f := by
          simp [hf]
        rw [hfind]
        subst hf
        exact dictGet_dictInsert_self d _ [f]
      · have hfind : List.find? (fun g => decide (till_animal_tag g = tag)) [f] = none := by
          simp [hf]
        rw [hfind]
        exact dictGet_dictInsert_other d _ tag [f] hf

theorem toList_append (s t : String) : (s ++ t).toList = s.toList ++ t.toList :=
  String.data_append s t

theorem pyEndsWith_iff {s t : String} :
    pyEndsWith s t = true ↔ ∃ u, u ++ t.toList = s.toList := by
  unfold pyEndsWith
  rw [List.isSuffixOf_iff_suffix]
  rfl

/-! The claims. -/

/-- Claim C3, amended to the code's actual tokenization (the split is on
single space characters, not arbitrary whitespace): for every timing string
that strips and splits into tokens all accepted by `float`, the computed dt
is `(last - first) / (count - 1)`; in particular `"0 100 200 300"` yields
`100.0`. -/
theorem c3_dt_formula :
    (∀ (s : String) (ts : List Rat),
      optionTraverse pyFloatChars (pySplitOnSpace (pyStrip s.toList)) = some ts →
      2 ≤ ts.length →
      calculate_dt_from_timing_ms s =
        some ((ts.getLast! - ts.head!) / ((ts.length : Rat) - 1))) ∧
    calculate_dt_from_timing_ms "0 100 200 300" = some 100 := by
  constructor
  · intro s ts hts hlen
    unfold calculate_dt_from_timing_ms
    simp only [hts]
    rw [if_neg (by omega)]
  · with_unfolding_all rfl

theorem c3_dt_formula_witness :
    (optionTraverse pyFloatChars (pySplitOnSpace (pyStrip "0 50 100".toList)) =
      some [0, 50, 100] ∧ 2 ≤ ([0, 50, 100] : List Rat).length) ∧
    calculate_dt_from_timing_ms "0 50 100" =
      some ((([0, 50, 100] : List Rat).getLast! - ([0, 50, 100] : List Rat).head!) /
        ((([0, 50, 100] : List Rat).length : Rat) - 1)) :=
  ⟨⟨by with_unfolding_all rfl, by decide⟩,
   c3_dt_formula.1 "0 50 100" [0, 50, 100] (by with_unfolding_all rfl) (by decide)⟩

/-- Claim C3 counterexample: the timing string `"0\t100"` contains two
numeric whitespace-separated timestamps (0 and 100, separated by a tab), so
the claim predicts dt = (100 - 0)/(2 - 1) = 100; but the code splits on
single spaces only, `float` rejects the sole token `"0\t100"`, and the
computation raises (yields no value, hence in particular not `some 100`)
instead. -/
theorem c3_counterexample : calculate_dt_from_timing_ms "0\t100" = none := by
  with_unfolding_all rfl

/-- Claim C1, amended: when parsing a record's timing list fails (fewer than
2 timestamps or a non-numeric token), the record's injected columns are
`dt = -1, Analyze = 0` and the output row has `Cycle = -1`; the import of the
remaining records continues (a timing-parse failure never aborts the file).
However, the output row's `Analyze` column is the path-resolution flag times
the default row's `Analyze` value — the record-level `Analyze = 0` is never
propagated to the output row, which therefore need not be 0. -/
theorem c1_timing_failure_row :
    (∀ (rec : VWSRecord) (default_row : DefaultRow) (row : LstRow),
      calculate_dt_from_timing_ms rec.timing_ms = none →
      convert_vws_names_to_lst_names rec default_row = some row →
      row.cycle = -1 ∧ (additional_cols_func rec.timing_ms).analyze = 0 ∧
      ∃ a d, till_get_path_relative_to_data_dir (fix_ps_location rec.location) =
          some (a, d) ∧
        row.analyze = a * (default_row.analyze.getD 1)) ∧
    (∀ (records : List VWSRecord) (mf : VWSRecord → Bool) (default_row : DefaultRow),
      (∀ r ∈ records, (convert_vws_names_to_lst_names r default_row).isSome) →
      (till1_read_single_measurement_metadata records mf default_row).isSome) := by
  constructor
  · intro rec δ row hdt hconv
    obtain ⟨a, d, hp, hrow⟩ := convert_eq_some_iff.mp hconv
    subst hrow
    exact ⟨by simp [additional_cols_func, hdt], by simp [additional_cols_func, hdt],
      a, d, hp, rfl⟩
  · intro records mf δ hall
    unfold till1_read_single_measurement_metadata
    apply optionTraverse_isSome
    intro m hm
    obtain ⟨p, hpmem, rfl⟩ := List.mem_map.mp hm
    have h1 : (convert_vws_names_to_lst_names { p.2 with index := p.1 } δ).isSome := by
      rw [convert_index_isSome]
      exact hall _ (List.mem_of_mem_filter (enumFromAux_mem hpmem))
    cases hc : convert_vws_names_to_lst_names { p.2 with index := p.1 } δ with
    | none => rw [hc] at h1; simp at h1
    | some row => simp [hc]

theorem c1_timing_failure_row_witness :
    (calculate_dt_from_timing_ms "5" = none ∧
     convert_vws_names_to_lst_names ⟨0, "m1", "animal1/data.pst", "5", 340, 10⟩ ⟨some 1⟩ =
       some ⟨1, "m1", "animal1/data", none, 1, -1, 340, 10, none⟩ ∧
     ((⟨1, "m1", "animal1/data", none, 1, -1, 340, 10, none⟩ : LstRow).cycle = -1 ∧
      (additional_cols_func "5").analyze = 0 ∧
      ∃ a d, till_get_path_relative_to_data_dir (fix_ps_location "animal1/data.pst") =
          some (a, d) ∧
        (⟨1, "m1", "animal1/data", none, 1, -1, 340, 10, none⟩ : LstRow).analyze =
          a * ((⟨some 1⟩ : DefaultRow).analyze.getD 1))) ∧
    (till1_read_single_measurement_metadata [⟨0, "m1", "animal1/data.pst", "5", 340, 10⟩]
      (fun _ => true) ⟨some 1⟩).isSome :=
  ⟨⟨by with_unfolding_all rfl, by with_unfolding_all rfl,
    c1_timing_failure_row.1 ⟨0, "m1", "animal1/data.pst", "5", 340, 10⟩ ⟨some 1⟩
      ⟨1, "m1", "animal1/data", none, 1, -1, 340, 10, none⟩
      (by with_unfolding_all rfl) (by with_unfolding_all rfl)⟩,
   c1_timing_failure_row.2 [⟨0, "m1", "animal1/data.pst", "5", 340, 10⟩] (fun _ => true)
     ⟨some 1⟩
     (by
       intro r hr
       rw [List.mem_singleton] at hr
       subst hr
       with_unfolding_all rfl)⟩

/-- Claim C1 counterexample: the record with timing `"5"` (a single
timestamp, so timing parsing fails) and the resolvable location
`"animal1/data.pst"`, converted with default `Analyze = 1`, produces an
output row with `Cycle = -1` but `Analyze = 1`, not `Analyze = 0` as the
claim states: the conversion multiplies the path flag (1) with the default
row's `Analyze` (1) and ignores the record-level `Analyze = 0`. -/
theorem c1_counterexample :
    (convert_vws_names_to_lst_names ⟨0, "m1", "animal1/data.pst", "5", 340, 10⟩
      ⟨some 1⟩).map (fun row => (row.cycle, row.analyze)) = some (-1, 1) := by
  with_unfolding_all rfl

/-- Claim C5: a raw location ending in `.ps` has one character appended to
become `.pst` before resolution; a location ending in a recognized
movie-file extension (and having a parent directory, so that the source's
`parts[-2]` exists) resolves to flag 1 with the parent-directory name joined
with the filename stem; a location with an unrecognized extension resolves
to `(0, "wrong extension")`. -/
theorem c5_till_path_resolution :
    (∀ loc : String, pyEndsWith loc ".ps" = true →
      fix_ps_location loc = loc ++ "t" ∧ pyEndsWith (loc ++ "t") ".pst" = true) ∧
    (∀ loc : String, (∃ ext ∈ till_movie_data_extensions, pyEndsWith loc ext = true) →
      2 ≤ (pyWindowsParts loc).length →
      till_get_path_relative_to_data_dir loc =
        some (1, (pyWindowsParts loc).getD ((pyWindowsParts loc).length - 2) "" ++ "/" ++
          pyStemOfName ((pyWindowsParts loc).getLastD ""))) ∧
    (∀ loc : String, (∀ ext ∈ till_movie_data_extensions, pyEndsWith loc ext = false) →
      till_get_path_relative_to_data_dir loc = some (0, "wrong extension")) ∧
    till_get_path_relative_to_data_dir "animal1/data.pst" = some (1, "animal1/data") := by
  refine ⟨?_, ?_, ?_, by decide⟩
  · intro loc h
    obtain ⟨u, hu⟩ := pyEndsWith_iff.mp h
    have hcond : pyLastTwo loc = ['p', 's'] := by
      unfold pyLastTwo
      rw [← hu]
      simp [List.reverse_append]
    constructor
    · unfold fix_ps_location
      rw [if_pos hcond]
    · apply pyEndsWith_iff.mpr
      refine ⟨u, ?_⟩
      rw [toList_append, ← hu]
      simp
  · intro loc ⟨ext, hmem, hext⟩ hlen
    unfold till_get_path_relative_to_data_dir
    cases hfind : till_movie_data_extensions.find? (fun e => pyEndsWith loc e) with
    | none =>
      rw [List.find?_eq_none] at hfind
      exact absurd hext (by simpa using hfind ext hmem)
    | some e => simp [hfind, hlen]
  · intro loc h
    have hfind : till_movie_data_extensions.find? (fun e => pyEndsWith loc e) = none :=
      List.find?_eq_none.mpr (by intro x hx; simp [h x hx])
    simp [till_get_path_relative_to_data_dir, hfind]

theorem c5_till_path_resolution_witness :
    (pyEndsWith "animal1/data.ps" ".ps" = true ∧
     fix_ps_location "animal1/data.ps" = "animal1/data.ps" ++ "t" ∧
     pyEndsWith ("animal1/data.ps" ++ "t") ".pst" = true) ∧
    ((∃ ext ∈ till_movie_data_extensions, pyEndsWith "till1/data.pst" ext = true) ∧
     2 ≤ (pyWindowsParts "till1/data.pst").length ∧
     till_get_path_relative_to_data_dir "till1/data.pst" =
       some (1, (pyWindowsParts "till1/data.pst").getD
         ((pyWindowsParts "till1/data.pst").length - 2) "" ++ "/" ++
         pyStemOfName ((pyWindowsParts "till1/data.pst").getLastD ""))) ∧
    ((∀ ext ∈ till_movie_data_extensions, pyEndsWith "a/b.txt" ext = false) ∧
     till_get_path_relative_to_data_dir "a/b.txt" = some (0, "wrong extension")) :=
  ⟨⟨by decide, c5_till_path_resolution.1 "animal1/data.ps" (by decide)⟩,
   ⟨⟨".pst", by decide, by decide⟩, by decide,
    c5_till_path_resolution.2.1 "till1/data.pst" ⟨".pst", by decide, by decide⟩ (by decide)⟩,
   ⟨by decide, c5_till_path_resolution.2.2.1 "a/b.txt" (by decide)⟩⟩

/-- Claim C2, amended: `Measu` is always the record's DataFrame `index`
column plus 1.  Within one file's output this gives: for SingleWavelength,
the within-file (filtered) record position plus 1 — a strictly increasing
sequence starting at 1; for DualWavelength, row `2k` carries the k-th
channel-340 record's index + 1 and row `2k + 1` the k-th channel-380
record's index + 1, the indices being whatever the external manager's
per-wavelength DataFrames carry; for ImageSeries, the row from the file at
0-based index i has `Measu = i + 1`, unique and increasing across the whole
import.  Across multiple Till files (single- or dual-wavelength), each
file's `VWSDataManager` indexes its records afresh, so the `Measu` sequence
repeats with every input file and is neither unique nor monotonically
increasing across a multi-file table (see the counterexample). -/
theorem c2_measu_sequence :
    (∀ (records : List VWSRecord) (mf : VWSRecord → Bool) (default_row : DefaultRow)
      (rows : List LstRow),
      till1_read_single_measurement_metadata records mf default_row = some rows →
      ∀ k row, rows[k]? = some row → row.measu = k + 1) ∧
    (∀ (ms340 ms380 : List VWSRecord) (default_row : DefaultRow) (first_utc : Rat)
      (rows : List LstRow) (k : Nat) (p : VWSRecord × VWSRecord),
      till2_read_single_measurement_metadata ms340 ms380 default_row first_utc = some rows →
      (ms340.zip ms380)[k]? = some p →
      rows[2 * k]?.map LstRow.measu = some (p.1.index + 1) ∧
      rows[2 * k + 1]?.map LstRow.measu = some (p.2.index + 1)) ∧
    (∀ (files : List (String × LSMMetadata)) (default_row : DefaultRow) (rows : List LSMRow),
      lsm_import_metadata files default_row = some rows →
      ∀ k row, rows[k]? = some row → row.measu = k + 1) := by
  refine ⟨?_, ?_, ?_⟩
  · intro records mf δ rows h k row hrow
    obtain ⟨hk, -⟩ := List.getElem?_eq_some_iff.mp hrow
    have hkf : k < (records.filter mf).length := by
      rw [← till1_read_single_length h]; exact hk
    obtain ⟨r, hr⟩ : ∃ r, (records.filter mf)[k]? = some r :=
      ⟨_, List.getElem?_eq_getElem hkf⟩
    obtain ⟨row', hconv, hrow'⟩ := till1_read_single_getElem h hr
    rw [hrow] at hrow'
    obtain ⟨a, d, hp, hrow''⟩ := convert_eq_some_iff.mp hconv
    have : row = { row' with mtime := some (row'.utc - get_earliest_utc records) } :=
      Option.some.inj hrow'
    subst this
    subst hrow''
    rfl
  · intro ms340 ms380 δ fu rows k p h hk
    obtain ⟨l340, l380, h1, h2, g1, g2⟩ := (till2_read_single_spec h).2 k p hk
    obtain ⟨a1, d1, hp1, e1⟩ := convert_eq_some_iff.mp h1
    obtain ⟨a2, d2, hp2, e2⟩ := convert_eq_some_iff.mp h2
    subst e1 e2
    rw [g1, g2]
    exact ⟨rfl, rfl⟩
  · intro files δ rows h k row hrow
    obtain ⟨hlen, hget⟩ := lsm_import_spec h
    obtain ⟨hk, -⟩ := List.getElem?_eq_some_iff.mp hrow
    have hkf : k < files.length := by rw [← hlen]; exact hk
    obtain ⟨p, hp⟩ : ∃ p, files[k]? = some p := ⟨_, List.getElem?_eq_getElem hkf⟩
    obtain ⟨r, hconv, hrowr⟩ := hget k p hp
    rw [hrow] at hrowr
    have : row = r := Option.some.inj hrowr
    subst this
    exact lsm_convert_measu hconv

theorem c2_measu_sequence_witness :
    (till1_read_single_measurement_metadata
      [⟨9, "m1", "animal1/data.pst", "0 100", 340, 10⟩,
       ⟨9, "m2", "animal1/datb.pst", "0 100", 380, 12⟩] (fun _ => true) ⟨some 1⟩ =
      some [⟨1, "m1", "animal1/data", none, 1, 100, 340, 10, some 0⟩,
            ⟨2, "m2", "animal1/datb", none, 1, 100, 380, 12, some 2⟩] ∧
     (⟨2, "m2", "animal1/datb", none, 1, 100, 380, 12, some 2⟩ : LstRow).measu = 1 + 1) ∧
    (till2_read_single_measurement_metadata
      [⟨0, "m1", "animal1/data.pst", "0 100", 340, 10⟩]
      [⟨1, "m1b", "animal1/datb.pst", "0 100", 380, 12⟩] ⟨some 1⟩ 10 =
      some [⟨1, "m1", "animal1/data", some "animal1/datb", 1, 100, 340, 10, some 0⟩,
            ⟨2, "m1b", "animal1/datb", none, 0, 100, 380, 12, some 2⟩] ∧
     (([⟨0, "m1", "animal1/data.pst", "0 100", 340, 10⟩] : List VWSRecord).zip
       ([⟨1, "m1b", "animal1/datb.pst", "0 100", 380, 12⟩] : List VWSRecord))[0]? =
       some (⟨0, "m1", "animal1/data.pst", "0 100", 340, 10⟩,
             ⟨1, "m1b", "animal1/datb.pst", "0 100", 380, 12⟩) ∧
     ([⟨1, "m1", "animal1/data", some "animal1/datb", 1, 100, 340, 10, some 0⟩,
       ⟨2, "m1b", "animal1/datb", none, 0, 100, 380, 12, some 2⟩] :
       List LstRow)[2 * 0]?.map LstRow.measu = some (0 + 1) ∧
     ([⟨1, "m1", "animal1/data", some "animal1/datb", 1, 100, 340, 10, some 0⟩,
       ⟨2, "m1b", "animal1/datb", none, 0, 100, 380, 12, some 2⟩] :
       List LstRow)[2 * 0 + 1]?.map LstRow.measu = some (1 + 1)) ∧
    (lsm_import_metadata [("r/a1/d/x.lsm", ⟨"s", 1, 488, 3, 1/1000000, 1/1000000⟩),
                          ("r/a1/d/y.lsm", ⟨"t", 1, 488, 4, 1/1000000, 1/1000000⟩)]
      ⟨some 1⟩ =
      some [⟨1, "s", 1000, 488, 3, 1, 1, .path "a1/d/x", 1⟩,
            ⟨2, "t", 1000, 488, 4, 1, 1, .path "a1/d/y", 1⟩] ∧
     (⟨2, "t", 1000, 488, 4, 1, 1, .path "a1/d/y", 1⟩ : LSMRow).measu = 1 + 1) :=
  ⟨⟨by with_unfolding_all rfl,
    c2_measu_sequence.1
      [⟨9, "m1", "animal1/data.pst", "0 100", 340, 10⟩,
       ⟨9, "m2", "animal1/datb.pst", "0 100", 380, 12⟩] (fun _ => true) ⟨some 1⟩
      [⟨1, "m1", "animal1/data", none, 1, 100, 340, 10, some 0⟩,
       ⟨2, "m2", "animal1/datb", none, 1, 100, 380, 12, some 2⟩]
      (by with_unfolding_all rfl) 1
      ⟨2, "m2", "animal1/datb", none, 1, 100, 380, 12, some 2⟩ (by with_unfolding_all rfl)⟩,
   ⟨by with_unfolding_all rfl, by with_unfolding_all rfl,
    (c2_measu_sequence.2.1
      [⟨0, "m1", "animal1/data.pst", "0 100", 340, 10⟩]
      [⟨1, "m1b", "animal1/datb.pst", "0 100", 380, 12⟩] ⟨some 1⟩ 10
      [⟨1, "m1", "animal1/data", some "animal1/datb", 1, 100, 340, 10, some 0⟩,
       ⟨2, "m1b", "animal1/datb", none, 0, 100, 380, 12, some 2⟩] 0
      (⟨0, "m1", "animal1/data.pst", "0 100", 340, 10⟩,
       ⟨1, "m1b", "animal1/datb.pst", "0 100", 380, 12⟩)
      (by with_unfolding_all rfl) (by with_unfolding_all rfl)).1,
    (c2_measu_sequence.2.1
      [⟨0, "m1", "animal1/data.pst", "0 100", 340, 10⟩]
      [⟨1, "m1b", "animal1/datb.pst", "0 100", 380, 12⟩] ⟨some 1⟩ 10
      [⟨1, "m1", "animal1/data", some "animal1/datb", 1, 100, 340, 10, some 0⟩,
       ⟨2, "m1b", "animal1/datb", none, 0, 100, 380, 12, some 2⟩] 0
      (⟨0, "m1", "animal1/data.pst", "0 100", 340, 10⟩,
       ⟨1, "m1b", "animal1/datb.pst", "0 100", 380, 12⟩)
      (by with_unfolding_all rfl) (by with_unfolding_all rfl)).2⟩,
   ⟨by with_unfolding_all rfl,
    c2_measu_sequence.2.2
      [("r/a1/d/x.lsm", ⟨"s", 1, 488, 3, 1/1000000, 1/1000000⟩),
       ("r/a1/d/y.lsm", ⟨"t", 1, 488, 4, 1/1000000, 1/1000000⟩)] ⟨some 1⟩
      [⟨1, "s", 1000, 488, 3, 1, 1, .path "a1/d/x", 1⟩,
       ⟨2, "t", 1000, 488, 4, 1, 1, .path "a1/d/y", 1⟩]
      (by with_unfolding_all rfl) 1
      ⟨2, "t", 1000, 488, 4, 1, 1, .path "a1/d/y", 1⟩ (by with_unfolding_all rfl)⟩⟩

/-- Claim C2 counterexample: each input file gets a fresh `VWSDataManager`,
so its record indices — and with them `Measu = index + 1` — repeat from one
file to the next.  Importing two SingleWavelength files of one record each
produces the `Measu` column `[1, 1]`; importing two DualWavelength files of
one record pair each (per-channel indices 0 and 1, so that each single
file's own `Measu` column `[1, 2]` is exactly the claimed strictly
increasing sequence from 1) produces `[1, 2, 1, 2]`.  In both cases the
`Measu` values of the whole table are neither unique nor monotonically
increasing, refuting the claim for SingleWavelength and for DualWavelength
alike. -/
theorem c2_counterexample :
    (till1_import_metadata
      [[⟨7, "m1", "animal1/data.pst", "0 100", 340, 10⟩],
       [⟨7, "m1", "animal1/data.pst", "0 100", 340, 10⟩]]
      (fun _ => true) ⟨some 1⟩).map (fun rows => rows.map LstRow.measu) = some [1, 1] ∧
    (till2_import_metadata
      [([⟨0, "m1", "animal1/data.pst", "0 100", 340, 10⟩],
        [⟨1, "m1b", "animal1/datb.pst", "0 100", 380, 12⟩], 10),
       ([⟨0, "m1", "animal1/data.pst", "0 100", 340, 10⟩],
        [⟨1, "m1b", "animal1/datb.pst", "0 100", 380, 12⟩], 10)]
      ⟨some 1⟩).map (fun rows => rows.map LstRow.measu) = some [1, 2, 1, 2] := by
  exact ⟨by with_unfolding_all rfl, by with_unfolding_all rfl⟩

/-- Claim C4: for every pair of records (paired by position by `zip`), the
channel-2 row always has `Analyze = 0` (forced after conversion, whatever
the path resolution produced), the channel-1 row receives the channel-2
row's resolved `DBB1` as its `dbb2`, and the two rows appear at positions
`2k` and `2k + 1`: channel 1 first, then channel 2. -/
theorem c4_dual_wavelength_pairs :
    ∀ (ms340 ms380 : List VWSRecord) (default_row : DefaultRow) (first_utc : Rat)
      (rows : List LstRow) (k : Nat) (p : VWSRecord × VWSRecord),
      till2_read_single_measurement_metadata ms340 ms380 default_row first_utc = some rows →
      (ms340.zip ms380)[k]? = some p →
      ∃ l340 l380, convert_vws_names_to_lst_names p.1 default_row = some l340 ∧
        convert_vws_names_to_lst_names p.2 default_row = some l380 ∧
        rows[2 * k]? =
          some { l340 with dbb2 := some l380.dbb1, mtime := some (l340.utc - first_utc) } ∧
        rows[2 * k + 1]? =
          some { l380 with analyze := 0, mtime := some (l380.utc - first_utc) } := by
  intro ms340 ms380 δ fu rows k p h hk
  exact (till2_read_single_spec h).2 k p hk

theorem c4_dual_wavelength_pairs_witness :
    (till2_read_single_measurement_metadata
      [⟨0, "m1", "animal1/data.pst", "0 100", 340, 10⟩]
      [⟨0, "m1b", "animal1/datb.txt", "0 100", 380, 12⟩] ⟨some 1⟩ 10 =
      some [⟨1, "m1", "animal1/data", some "wrong extension", 1, 100, 340, 10, some 0⟩,
            ⟨1, "m1b", "wrong extension", none, 0, 100, 380, 12, some 2⟩] ∧
     (([⟨0, "m1", "animal1/data.pst", "0 100", 340, 10⟩] : List VWSRecord).zip
       ([⟨0, "m1b", "animal1/datb.txt", "0 100", 380, 12⟩] : List VWSRecord))[0]? =
       some (⟨0, "m1", "animal1/data.pst", "0 100", 340, 10⟩,
             ⟨0, "m1b", "animal1/datb.txt", "0 100", 380, 12⟩)) ∧
    (∃ l340 l380,
      convert_vws_names_to_lst_names ⟨0, "m1", "animal1/data.pst", "0 100", 340, 10⟩
        ⟨some 1⟩ = some l340 ∧
      convert_vws_names_to_lst_names ⟨0, "m1b", "animal1/datb.txt", "0 100", 380, 12⟩
        ⟨some 1⟩ = some l380 ∧
      ([⟨1, "m1", "animal1/data", some "wrong extension", 1, 100, 340, 10, some 0⟩,
        ⟨1, "m1b", "wrong extension", none, 0, 100, 380, 12, some 2⟩] : List LstRow)[2 * 0]? =
        some { l340 with dbb2 := some l380.dbb1, mtime := some (l340.utc - 10) } ∧
      ([⟨1, "m1", "animal1/data", some "wrong extension", 1, 100, 340, 10, some 0⟩,
        ⟨1, "m1b", "wrong extension", none, 0, 100, 380, 12, some 2⟩] :
        List LstRow)[2 * 0 + 1]? =
        some { l380 with analyze := 0, mtime := some (l380.utc - 10) }) :=
  ⟨⟨by with_unfolding_all rfl, by with_unfolding_all rfl⟩,
   c4_dual_wavelength_pairs
     [⟨0, "m1", "animal1/data.pst", "0 100", 340, 10⟩]
     [⟨0, "m1b", "animal1/datb.txt", "0 100", 380, 12⟩] ⟨some 1⟩ 10
     [⟨1, "m1", "animal1/data", some "wrong extension", 1, 100, 340, 10, some 0⟩,
      ⟨1, "m1b", "wrong extension", none, 0, 100, 380, 12, some 2⟩] 0
     (⟨0, "m1", "animal1/data.pst", "0 100", 340, 10⟩,
      ⟨0, "m1b", "animal1/datb.txt", "0 100", 380, 12⟩)
     (by with_unfolding_all rfl) (by with_unfolding_all rfl)⟩

/-- Claim C6: the output row count of `import_metadata` is, per importer:
SingleWavelength, the sum over files of the records surviving the filter;
DualWavelength, exactly twice the number of paired (zipped) records;
ImageSeries, the number of input files; and the empty input file list yields
the empty table for each importer, without an error. -/
theorem c6_row_counts :
    (∀ (files : List (List VWSRecord)) (mf : VWSRecord → Bool) (default_row : DefaultRow)
      (rows : List LstRow), till1_import_metadata files mf default_row = some rows →
      rows.length = (files.map (fun fle => (fle.filter mf).length)).sum) ∧
    (∀ (files : List (List VWSRecord × List VWSRecord × Rat)) (default_row : DefaultRow)
      (rows : List LstRow), till2_import_metadata files default_row = some rows →
      rows.length = (files.map (fun fle => 2 * (fle.1.zip fle.2.1).length)).sum) ∧
    (∀ (files : List (String × LSMMetadata)) (default_row : DefaultRow)
      (rows : List LSMRow), lsm_import_metadata files default_row = some rows →
      rows.length = files.length) ∧
    (∀ (mf : VWSRecord → Bool) (default_row : DefaultRow),
      till1_import_metadata [] mf default_row = some []) ∧
    (∀ default_row : DefaultRow, till2_import_metadata [] default_row = some []) ∧
    (∀ default_row : DefaultRow, lsm_import_metadata [] default_row = some []) := by
  refine ⟨?_, ?_, ?_, fun mf δ => rfl, fun δ => rfl, fun δ => rfl⟩
  · intro files mf δ rows h
    exact till1_import_length h
  · intro files δ rows h
    exact till2_import_length h
  · intro files δ rows h
    exact (lsm_import_spec h).1

theorem c6_row_counts_witness :
    (till1_import_metadata
      [[⟨0, "m1", "animal1/data.pst", "0 100", 340, 10⟩,
        ⟨0, "m2", "animal1/datb.pst", "0 100", 380, 12⟩], []]
      (fun r => r.monochromatorWL_nm = 340) ⟨some 1⟩ =
      some [⟨1, "m1", "animal1/data", none, 1, 100, 340, 10, some 0⟩] ∧
     ([⟨1, "m1", "animal1/data", none, 1, 100, 340, 10, some 0⟩] : List LstRow).length =
       (([[⟨0, "m1", "animal1/data.pst", "0 100", 340, 10⟩,
           ⟨0, "m2", "animal1/datb.pst", "0 100", 380, 12⟩], []] : List (List VWSRecord)).map
         (fun fle => (fle.filter (fun r => decide (r.monochromatorWL_nm = 340))).length)).sum) ∧
    (till2_import_metadata
      [([⟨0, "m1", "animal1/data.pst", "0 100", 340, 10⟩],
        [⟨0, "m1b", "animal1/datb.pst", "0 100", 380, 12⟩], 10)] ⟨some 1⟩ =
      some [⟨1, "m1", "animal1/data", some "animal1/datb", 1, 100, 340, 10, some 0⟩,
            ⟨1, "m1b", "animal1/datb", none, 0, 100, 380, 12, some 2⟩] ∧
     ([⟨1, "m1", "animal1/data", some "animal1/datb", 1, 100, 340, 10, some 0⟩,
       ⟨1, "m1b", "animal1/datb", none, 0, 100, 380, 12, some 2⟩] : List LstRow).length =
       (([(([⟨0, "m1", "animal1/data.pst", "0 100", 340, 10⟩] : List VWSRecord),
           ([⟨0, "m1b", "animal1/datb.pst", "0 100", 380, 12⟩] : List VWSRecord), (10 : Rat))] :
          List (List VWSRecord × List VWSRecord × Rat)).map
         (fun fle => 2 * (fle.1.zip fle.2.1).length)).sum) ∧
    (lsm_import_metadata [("r/a1/d/x.lsm", ⟨"s", 1, 488, 3, 1/1000000, 1/1000000⟩)]
      ⟨some 1⟩ = some [⟨1, "s", 1000, 488, 3, 1, 1, .path "a1/d/x", 1⟩] ∧
     ([⟨1, "s", 1000, 488, 3, 1, 1, .path "a1/d/x", 1⟩] : List LSMRow).length =
       ([("r/a1/d/x.lsm", (⟨"s", 1, 488, 3, 1/1000000, 1/1000000⟩ : LSMMetadata))]).length) ∧
    till1_import_metadata [] (fun _ => true) ⟨some 1⟩ = some [] ∧
    till2_import_metadata [] ⟨some 1⟩ = some [] ∧
    lsm_import_metadata [] ⟨some 1⟩ = some [] :=
  ⟨⟨by with_unfolding_all rfl,
    c6_row_counts.1
      [[⟨0, "m1", "animal1/data.pst", "0 100", 340, 10⟩,
        ⟨0, "m2", "animal1/datb.pst", "0 100", 380, 12⟩], []]
      (fun r => r.monochromatorWL_nm = 340) ⟨some 1⟩
      [⟨1, "m1", "animal1/data", none, 1, 100, 340, 10, some 0⟩]
      (by with_unfolding_all rfl)⟩,
   ⟨by with_unfolding_all rfl,
    c6_row_counts.2.1
      [([⟨0, "m1", "animal1/data.pst", "0 100", 340, 10⟩],
        [⟨0, "m1b", "animal1/datb.pst", "0 100", 380, 12⟩], 10)] ⟨some 1⟩
      [⟨1, "m1", "animal1/data", some "animal1/datb", 1, 100, 340, 10, some 0⟩,
       ⟨1, "m1b", "animal1/datb", none, 0, 100, 380, 12, some 2⟩]
      (by with_unfolding_all rfl)⟩,
   ⟨by with_unfolding_all rfl,
    c6_row_counts.2.2.1 [("r/a1/d/x.lsm", ⟨"s", 1, 488, 3, 1/1000000, 1/1000000⟩)] ⟨some 1⟩
      [⟨1, "s", 1000, 488, 3, 1, 1, .path "a1/d/x", 1⟩] (by with_unfolding_all rfl)⟩,
   c6_row_counts.2.2.2.1 (fun _ => true) ⟨some 1⟩,
   c6_row_counts.2.2.2.2.1 ⟨some 1⟩,
   c6_row_counts.2.2.2.2.2 ⟨some 1⟩⟩

/-- Claim C7, amended: a cancelled dialog (no files chosen) raises the
user-abort error; the validation assertion checks only the FIRST chosen
file: if the first file's path does not start with the root directory
string, an assertion error naming the expected root is raised, and if it
does, the grouping is returned without examining the remaining files (a
later file outside the root is not detected; see the counterexample). -/
theorem c7_ask_for_files :
    (∀ default_dir : String, ask_for_files default_dir none = .error .userAbort) ∧
    (∀ (default_dir f0 : String) (rest : List String), pyStartsWith f0 default_dir = false →
      ask_for_files default_dir (some (f0 :: rest)) =
        .error (.assertionError default_dir)) ∧
    (∀ (default_dir f0 : String) (rest : List String), pyStartsWith f0 default_dir = true →
      ask_for_files default_dir (some (f0 :: rest)) =
        .ok (till_get_animal_tag_raw_data_mapping (f0 :: rest))) := by
  refine ⟨fun _ => rfl, ?_, ?_⟩
  · intro dir f0 rest h
    simp [ask_for_files, h]
  · intro dir f0 rest h
    simp [ask_for_files, h]

theorem c7_ask_for_files_witness :
    ask_for_files "/data" none = .error .userAbort ∧
    (pyStartsWith "/elsewhere/a.vws.log" "/data" = false ∧
     ask_for_files "/data" (some ["/elsewhere/a.vws.log"]) =
       .error (.assertionError "/data")) ∧
    (pyStartsWith "/data/a.vws.log" "/data" = true ∧
     ask_for_files "/data" (some ["/data/a.vws.log"]) =
       .ok (till_get_animal_tag_raw_data_mapping ["/data/a.vws.log"])) :=
  ⟨c7_ask_for_files.1 "/data",
   ⟨by decide, c7_ask_for_files.2.1 "/data" "/elsewhere/a.vws.log" [] (by decide)⟩,
   ⟨by decide, c7_ask_for_files.2.2 "/data" "/data/a.vws.log" [] (by decide)⟩⟩

/-- Claim C7 counterexample: with root `"/data"` and the chosen files
`["/data/a.vws.log", "/tmp/b.vws.log"]`, the second file lies outside the
root, yet `ask_for_files` raises no validation error and returns the
grouping containing the outside file: only `files_chosen[0]` is checked. -/
theorem c7_counterexample :
    pyStartsWith "/tmp/b.vws.log" "/data" = false ∧
    ask_for_files "/data" (some ["/data/a.vws.log", "/tmp/b.vws.log"]) =
      .ok [("a", ["/data/a.vws.log"]), ("b", ["/tmp/b.vws.log"])] := by
  exact ⟨by decide, by decide⟩

/-- Claim C8: `get_importer_class` returns the SingleWavelength importer
class for code 3, the DualWavelength importer class for code 4 and the
ImageSeries importer class for code 20, and raises `NotImplementedError`
for every other code. -/
theorem c8_get_importer_class :
    get_importer_class 3 = .ok .tillImporterOneWavelength ∧
    get_importer_class 4 = .ok .tillImporterTwoWavelength ∧
    get_importer_class 20 = .ok .lsmImporter ∧
    ∀ c : Int, c ≠ 3 → c ≠ 4 → c ≠ 20 →
      get_importer_class c = .error .notImplementedError := by
  refine ⟨rfl, rfl, rfl, ?_⟩
  intro c h3 h4 h20
  simp [get_importer_class, h3, h4, h20]

theorem c8_get_importer_class_witness :
    ((7 : Int) ≠ 3 ∧ (7 : Int) ≠ 4 ∧ (7 : Int) ≠ 20) ∧
    get_importer_class 7 = .error .notImplementedError :=
  ⟨⟨by decide, by decide, by decide⟩,
   c8_get_importer_class.2.2.2 7 (by decide) (by decide) (by decide)⟩

/-- Claim C9: for each supported experiment-type code (3, 4 and 20),
`get_setup_extension` raises `AttributeError`: it reads the attribute
`movie_data_extension` (singular), but every importer class only ever
assigns `movie_data_extensions` (plural), so the function never returns
normally on a supported code. -/
theorem c9_get_setup_extension :
    get_setup_extension 3 = .error .attributeError ∧
    get_setup_extension 4 = .error .attributeError ∧
    get_setup_extension 20 = .error .attributeError := by
  exact ⟨by decide, by decide, by decide⟩

/-- Claim C10: in the Till-family subject grouping, every entry of the
returned mapping is a singleton list `[f]` for some chosen file `f`, keyed
by that file's name up to the first period; looking a tag up yields the LAST
chosen file bearing it (`reverse.find?`), so when two chosen files share the
tag the later one has silently replaced the earlier one. -/
theorem c10_animal_tag_mapping :
    (∀ (files_chosen : List String) (kv : String × List String),
      kv ∈ till_get_animal_tag_raw_data_mapping files_chosen →
      ∃ f ∈ files_chosen, kv.1 = till_animal_tag f ∧ kv.2 = [f]) ∧
    (∀ (files_chosen : List String) (tag f : String),
      files_chosen.reverse.find? (fun g => till_animal_tag g = tag) = some f →
      dictGet (till_get_animal_tag_raw_data_mapping files_chosen) tag = some [f]) := by
  constructor
  · intro files kv h
    rcases till_mapping_foldl_mem files [] kv h with h' | ⟨f, hf, rfl⟩
    · simp at h'
    · exact ⟨f, hf, rfl, rfl⟩
  · intro files tag f hfind
    unfold till_get_animal_tag_raw_data_mapping
    rw [till_mapping_foldl_get files [] tag, hfind]

theorem c10_animal_tag_mapping_witness :
    (("x", ["d/x.2.log"]) ∈ till_get_animal_tag_raw_data_mapping ["d/x.1.log", "d/x.2.log"] ∧
     (∃ f ∈ ["d/x.1.log", "d/x.2.log"],
       ("x", ["d/x.2.log"]).1 = till_animal_tag f ∧ ("x", ["d/x.2.log"]).2 = [f])) ∧
    ((["d/x.1.log", "d/x.2.log"] : List String).reverse.find?
        (fun g => till_animal_tag g = "x") = some "d/x.2.log" ∧
     dictGet (till_get_animal_tag_raw_data_mapping ["d/x.1.log", "d/x.2.log"]) "x" =
       some ["d/x.2.log"]) :=
  ⟨⟨by decide,
    c10_animal_tag_mapping.1 ["d/x.1.log", "d/x.2.log"] ("x", ["d/x.2.log"]) (by decide)⟩,
   ⟨by decide,
    c10_animal_tag_mapping.2 ["d/x.1.log", "d/x.2.log"] "x" "d/x.2.log" (by decide)⟩⟩

end PyView
